import Mathlib

/-!
Shallow embedding of `watobs/datafarm.py`: the table decoder `to_pandas_df`,
the datetime normalizer `_parse_datetime`, the insert-payload pipeline
(`_prepare_insert_data`, `_get_insert_data_body`), the session retry wrapper
`ensure_auth`, and `update_data_quality`.  Machine floats are modelled as
rationals, pandas frames as ordered association lists of columns, and the
relevant behavior of the pandas/numpy/pandera library calls is reproduced at
the cell level for the value shapes that occur in this code base.
-/

namespace Watobs

/-- Monadic map over `Except`, written recursively so proofs can follow the
structure of the list (models pandas `Series.apply`, which raises on the
first failing element). -/
def mapE (f : α → Except ε β) : List α → Except ε (List β)
  | [] => .ok []
  | a :: as =>
    match f a with
    | .error e => .error e
    | .ok b =>
      match mapE f as with
      | .error e => .error e
      | .ok bs => .ok (b :: bs)

theorem mapE_ok_length (f : α → Except ε β) :
    ∀ (l : List α) (l' : List β), mapE f l = .ok l' → l'.length = l.length := by
  intro l
  induction l with
  | nil => intro l' h; simp [mapE] at h; simp [← h]
  | cons a as ih =>
    intro l' h
    simp only [mapE] at h
    cases hfa : f a with
    | error e => rw [hfa] at h; exact absurd h (by simp)
    | ok b =>
      rw [hfa] at h
      cases hrest : mapE f as with
      | error e => rw [hrest] at h; exact absurd h (by simp)
      | ok bs =>
        rw [hrest] at h
        cases h
        simp [ih bs hrest]

theorem mapE_ok_get (f : α → Except ε β) :
    ∀ (l : List α) (l' : List β), mapE f l = .ok l' →
    ∀ (i : Nat) (v : α), l[i]? = some v →
    ∃ w, f v = .ok w ∧ l'[i]? = some w := by
  intro l
  induction l with
  | nil => intro l' _ i v hv; simp at hv
  | cons a as ih =>
    intro l' h i v hv
    simp only [mapE] at h
    cases hfa : f a with
    | error e => rw [hfa] at h; exact absurd h (by simp)
    | ok b =>
      rw [hfa] at h
      cases hrest : mapE f as with
      | error e => rw [hrest] at h; exact absurd h (by simp)
      | ok bs =>
        rw [hrest] at h
        cases h
        cases i with
        | zero =>
          simp at hv
          subst hv
          exact ⟨b, hfa, by simp⟩
        | succ j =>
          simp at hv
          obtain ⟨w, hw, hg⟩ := ih bs hrest j v hv
          exact ⟨w, hw, by simpa using hg⟩

/-! ## Datetime model

`_parse_datetime` delegates to `pd.to_datetime` and `isoformat`.  A parsed
value is modelled as a calendar timestamp at millisecond precision with an
optional timezone offset in minutes (pandas keeps the offset it parsed; it
does not convert to UTC). -/

structure Timestamp where
  year : Nat
  month : Nat
  day : Nat
  hour : Nat
  minute : Nat
  second : Nat
  millisecond : Nat
  tz : Option Int
deriving DecidableEq, Repr

def isLeap (y : Nat) : Bool :=
  y % 4 = 0 && (y % 100 ≠ 0 || y % 400 = 0)

def daysInMonth (y m : Nat) : Nat :=
  if m = 2 then (if isLeap y then 29 else 28)
  else if m = 4 ∨ m = 6 ∨ m = 9 ∨ m = 11 then 30
  else 31

/-- Days since 1970-01-01 of a civil date (standard civil-calendar
conversion, floor division throughout). -/
def daysFromCivil (y : Int) (m d : Nat) : Int :=
  let y' : Int := if m ≤ 2 then y - 1 else y
  let era : Int := Int.fdiv y' 400
  let yoe : Int := y' - era * 400
  let mp : Int := Int.emod ((m : Int) + 9) 12
  let doy : Int := Int.fdiv (153 * mp + 2) 5 + (d : Int) - 1
  let doe : Int := yoe * 365 + Int.fdiv yoe 4 - Int.fdiv yoe 100 + doy
  era * 146097 + doe - 719468

/-- Civil date from days since 1970-01-01 (inverse of `daysFromCivil`). -/
def civilFromDays (z0 : Int) : Int × Nat × Nat :=
  let z := z0 + 719468
  let era : Int := Int.fdiv z 146097
  let doe : Int := z - era * 146097
  let yoe : Int :=
    Int.fdiv (doe - Int.fdiv doe 1460 + Int.fdiv doe 36524 - Int.fdiv doe 146096) 365
  let y : Int := yoe + era * 400
  let doy : Int := doe - (365 * yoe + Int.fdiv yoe 4 - Int.fdiv yoe 100)
  let mp : Int := Int.fdiv (5 * doy + 2) 153
  let d : Int := doy - Int.fdiv (153 * mp + 2) 5 + 1
  let m : Int := if mp < 10 then mp + 3 else mp - 9
  (if m ≤ 2 then y + 1 else y, m.toNat, d.toNat)

/-- Naive (tz-free) timestamp of an instant given as epoch milliseconds. -/
def civilFromMillis (z : Int) : Timestamp :=
  let days := Int.fdiv z 86400000
  let rem := (Int.emod z 86400000).toNat
  let c := civilFromDays days
  { year := c.1.toNat
    month := c.2.1
    day := c.2.2
    hour := rem / 3600000
    minute := rem % 3600000 / 60000
    second := rem % 60000 / 1000
    millisecond := rem % 1000
    tz := none }

/-- Epoch milliseconds of the instant a timestamp denotes (a missing offset
is read as UTC wall time). -/
def epochMillis (t : Timestamp) : Int :=
  daysFromCivil (t.year : Int) t.month t.day * 86400000
    + ((t.hour * 3600000 + t.minute * 60000 + t.second * 1000 + t.millisecond : Nat) : Int)
    - (t.tz.getD 0) * 60000

def padNum (w n : Nat) : String :=
  let s := toString n
  String.mk (List.replicate (w - s.length) '0') ++ s

/-- Python `datetime.isoformat(timespec="milliseconds")`: the offset, when
present, is rendered as `±HH:MM` (UTC itself renders as `+00:00`). -/
def isoformatMs (t : Timestamp) : String :=
  let core :=
    padNum 4 t.year ++ "-" ++ padNum 2 t.month ++ "-" ++ padNum 2 t.day ++ "T"
      ++ padNum 2 t.hour ++ ":" ++ padNum 2 t.minute ++ ":" ++ padNum 2 t.second
      ++ "." ++ padNum 3 t.millisecond
  match t.tz with
  | none => core
  | some o =>
    let a := o.natAbs
    core ++ (if o < 0 then "-" else "+") ++ padNum 2 (a / 60) ++ ":" ++ padNum 2 (a % 60)

/-! ### String parsing (the ISO subset of what `pd.to_datetime` accepts)

Modelled grammar: `YYYY-MM-DD`, optionally followed by `T` or a space and
`HH:MM:SS`, an optional fraction, and an optional offset (`Z` or `±HH:MM`).
Other pandas-accepted spellings (e.g. `MM/DD/YYYY`) are outside the model. -/

def digitVal (c : Char) : Option Nat :=
  if c.isDigit then some (c.toNat - 48) else none

def readDigits (acc : Nat) : Nat → List Char → Option (Nat × List Char)
  | 0, cs => some (acc, cs)
  | _ + 1, [] => none
  | k + 1, c :: cs =>
    match digitVal c with
    | some d => readDigits (acc * 10 + d) k cs
    | none => none

def expectChar (ch : Char) : List Char → Option (List Char)
  | [] => none
  | c :: cs => if c = ch then some cs else none

def readFracDigits : List Char → List Nat × List Char
  | [] => ([], [])
  | c :: cs =>
    match digitVal c with
    | some d =>
      let r := readFracDigits cs
      (d :: r.1, r.2)
    | none => ([], c :: cs)

/-- Milliseconds denoted by a fractional-seconds digit list (extra digits
beyond milliseconds are truncated, as `timespec="milliseconds"` does). -/
def msOfFrac : List Nat → Nat
  | [] => 0
  | [a] => a * 100
  | [a, b] => a * 100 + b * 10
  | a :: b :: c :: _ => a * 100 + b * 10 + c

def parseOffsetEnd : List Char → Option (Option Int)
  | [] => some none
  | ['Z'] => some (some 0)
  | '+' :: cs => do
    let (h, cs) ← readDigits 0 2 cs
    let cs ← expectChar ':' cs
    let (mi, cs) ← readDigits 0 2 cs
    if cs = [] ∧ mi < 60 then some (some ((h * 60 + mi : Nat) : Int)) else none
  | '-' :: cs => do
    let (h, cs) ← readDigits 0 2 cs
    let cs ← expectChar ':' cs
    let (mi, cs) ← readDigits 0 2 cs
    if cs = [] ∧ mi < 60 then some (some (-((h * 60 + mi : Nat) : Int))) else none
  | _ => none

def parseTimePart (y mo d : Nat) (cs : List Char) : Option Timestamp := do
  let (h, cs) ← readDigits 0 2 cs
  let cs ← expectChar ':' cs
  let (mi, cs) ← readDigits 0 2 cs
  let cs ← expectChar ':' cs
  let (s, cs) ← readDigits 0 2 cs
  if h ≥ 24 ∨ mi ≥ 60 ∨ s ≥ 60 then none
  else
    match cs with
    | '.' :: rest =>
      let fr := readFracDigits rest
      if fr.1 = [] then none
      else do
        let tz ← parseOffsetEnd fr.2
        some ⟨y, mo, d, h, mi, s, msOfFrac fr.1, tz⟩
    | _ => do
      let tz ← parseOffsetEnd cs
      some ⟨y, mo, d, h, mi, s, 0, tz⟩

def parseIso (s : String) : Option Timestamp := do
  let cs := s.toList
  let (y, cs) ← readDigits 0 4 cs
  let cs ← expectChar '-' cs
  let (mo, cs) ← readDigits 0 2 cs
  let cs ← expectChar '-' cs
  let (d, cs) ← readDigits 0 2 cs
  if mo = 0 ∨ mo > 12 ∨ d = 0 ∨ d > daysInMonth y mo then none
  else
    match cs with
    | [] => some ⟨y, mo, d, 0, 0, 0, 0, none⟩
    | 'T' :: rest => parseTimePart y mo d rest
    | ' ' :: rest => parseTimePart y mo d rest
    | _ => none

/-- The `DateTime = str | datetime.datetime` union from the source. -/
inductive DTInput where
  | s (v : String)
  | dt (t : Timestamp)
deriving DecidableEq, Repr

inductive DTErr where
  | parseError
  | typeError
deriving DecidableEq, Repr

/-- `pd.to_datetime` on a single string or datetime value: a parse failure
raises `ValueError`; an already-structured value passes through, offset
included (no conversion to UTC). -/
def pd_to_datetime (x : DTInput) : Except DTErr Timestamp :=
  match x with
  | .s v =>
    match parseIso v with
    | some t => .ok t
    | none => .error .parseError
  | .dt t => .ok t

/-- `_parse_datetime` (datafarm.py line 55): `isoformat` at millisecond
precision with a literal `"Z"` appended — no timezone conversion happens. -/
def _parse_datetime (x : DTInput) : Except DTErr String :=
  match pd_to_datetime x with
  | .ok t => .ok (isoformatMs t ++ "Z")
  | .error e => .error e

/-- Shift a timestamp to UTC wall time, dropping its offset. -/
def toUTC (t : Timestamp) : Timestamp :=
  match t.tz with
  | none => t
  | some _ => civilFromMillis (epochMillis t)

/-- Modelled from the spec: "Output is always UTC, millisecond precision,
suffixed with a literal `Z`" — the normalizer the spec describes, used as
the refinement comparator for `_parse_datetime`. -/
def specNormalize (x : DTInput) : Except DTErr String :=
  match pd_to_datetime x with
  | .ok t => .ok (isoformatMs (toUTC t) ++ "Z")
  | .error e => .error e

/-! ## Cells and frames

A pandas `DataFrame` is modelled as an ordered association list of columns.
Machine floats are rationals; `nan` and Python `None` are separate cells. -/

inductive Cell where
  | str (s : String)
  | int (n : Int)
  | float (q : ℚ)
  | nan
  | null
  | bool (b : Bool)
  | dtMs (ms : Int)
  | pair (n : Nat) (v : ℚ)
  | bytes (b64 : String)
deriving DecidableEq, Repr

def Cell.isStr : Cell → Bool
  | .str _ => true
  | _ => false

def Cell.isInt : Cell → Bool
  | .int _ => true
  | _ => false

def Cell.isNumberish : Cell → Bool
  | .int _ => true
  | .float _ => true
  | .nan => true
  | .null => true
  | _ => false

def Cell.isNonNullNumber : Cell → Bool
  | .int _ => true
  | .float _ => true
  | .nan => true
  | _ => false

def Cell.isBool : Cell → Bool
  | .bool _ => true
  | _ => false

def Cell.isDt : Cell → Bool
  | .dtMs _ => true
  | _ => false

def Cell.isFloatLike : Cell → Bool
  | .float _ => true
  | .nan => true
  | _ => false

structure Frame where
  cols : List (String × List Cell)
deriving DecidableEq, Repr

def Frame.names (f : Frame) : List String := f.cols.map (·.1)

def Frame.get? (f : Frame) (n : String) : Option (List Cell) :=
  (f.cols.find? (·.1 = n)).map (·.2)

/-- `df[n] = col`: replace-in-place when the label exists, append otherwise. -/
def Frame.set (f : Frame) (n : String) (col : List Cell) : Frame :=
  if f.cols.any (·.1 = n) then
    ⟨f.cols.map (fun p => if p.1 = n then (n, col) else p)⟩
  else ⟨f.cols ++ [(n, col)]⟩

/-- `df.rename(columns={old: new})`. -/
def Frame.rename (f : Frame) (old new : String) : Frame :=
  ⟨f.cols.map (fun p => if p.1 = old then (new, p.2) else p)⟩

/-- `del df[n]`. -/
def Frame.drop (f : Frame) (n : String) : Frame :=
  ⟨f.cols.filter (fun p => ¬ p.1 = n)⟩

/-- `df.empty`: true when the frame has no columns or no rows. -/
def Frame.isEmpty (f : Frame) : Bool :=
  match f.cols with
  | [] => true
  | (_, c) :: _ => c.isEmpty

/-! ## Table decoder `to_pandas_df` -/

structure SchemaField where
  name : String
  ftype : String
deriving DecidableEq, Repr

structure TableSchema where
  fields : List SchemaField
  primaryKey : List String
deriving DecidableEq, Repr

structure TableDocument where
  schema : Option TableSchema
  data : Option (List (List Cell))
deriving DecidableEq, Repr

/-- Decoded result: an optional index column (label and values) plus the
ordinary columns. -/
structure PdFrame where
  index : Option (String × List Cell)
  cols : List (String × List Cell)
deriving DecidableEq, Repr

def PdFrame.nRows (df : PdFrame) : Nat :=
  match df.index with
  | some (_, v) => v.length
  | none =>
    match df.cols with
    | [] => 0
    | (_, c) :: _ => c.length

inductive PdError where
  | missingSchema
  | lengthMismatch
  | coerceError
  | keyError (k : String)
  | indexError
deriving DecidableEq, Repr

/-- Column dtype as `pandas.io.json.build_table_schema` reports it:
all-int → `integer`, numeric-with-float-or-missing → `number`,
all-bool → `boolean`, all-datetime → `datetime`, anything else (object
dtype) → `string`. -/
def inferredColType (vals : List Cell) : String :=
  if vals ≠ [] ∧ vals.all Cell.isInt then "integer"
  else if vals ≠ [] ∧ vals.all Cell.isBool then "boolean"
  else if vals ≠ [] ∧ vals.all Cell.isNumberish ∧ vals.any Cell.isNonNullNumber then "number"
  else if vals ≠ [] ∧ vals.all Cell.isDt then "datetime"
  else "string"

/-- `pd.to_datetime(column, unit="ms")` cell by cell: integers are epoch
milliseconds, missing values become `NaT`, strings and other objects raise. -/
def toDatetimeMsCell : Cell → Except PdError Cell
  | .int n => .ok (.dtMs n)
  | .float q => .ok (.dtMs ⌊q⌋)
  | .nan => .ok .nan
  | .null => .ok .nan
  | .dtMs n => .ok (.dtMs n)
  | _ => .error .coerceError

/-- Parse a decimal literal the way Python `float` does on the strings that
occur here: optional sign, digits, optional fractional digits, or `nan`. -/
def parseFloatLit (s : String) : Option ℚ :=
  let cs := s.toList
  let core : List Char → Option ℚ := fun cs => do
    let (ip, cs) ← match cs with
      | c :: _ =>
        if c.isDigit then
          let r := readFracDigits cs
          some (r.1.foldl (fun a d => a * 10 + d) 0, r.2)
        else none
      | [] => none
    match cs with
    | [] => some (ip : ℚ)
    | '.' :: rest =>
      let fr := readFracDigits rest
      if fr.2 = [] then
        some ((ip : ℚ) + (fr.1.foldl (fun a d => a * 10 + d) 0 : ℚ)
          / ((10 : ℚ) ^ fr.1.length))
      else none
    | _ => none
  if s = "nan" ∨ s = "NaN" then some 0 else
  match cs with
  | '-' :: rest => (core rest).map (fun q => -q)
  | '+' :: rest => core rest
  | _ => core cs

/-- `column.astype(float)` cell by cell (numeric strings parse, `None`
becomes `NaN`, non-numeric objects raise `ValueError`). -/
def astypeFloatCell : Cell → Except PdError Cell
  | .int n => .ok (.float n)
  | .float q => .ok (.float q)
  | .nan => .ok .nan
  | .null => .ok .nan
  | .bool b => .ok (.float (if b then 1 else 0))
  | .str s =>
    if s = "nan" ∨ s = "NaN" then .ok .nan
    else
      match parseFloatLit s with
      | some q => .ok (.float q)
      | none => .error .coerceError
  | _ => .error .coerceError

/-- One iteration of the declared-vs-inferred reconciliation loop in
`to_pandas_df` (lines 39-48). -/
def coerceOne (declared : String) (vals : List Cell) : Except PdError (List Cell) :=
  if declared = inferredColType vals then .ok vals
  else if declared = "datetime" then mapE toDatetimeMsCell vals
  else if declared = "number" then mapE astypeFloatCell vals
  else .ok vals

def coerceCols : List SchemaField → List (String × List Cell) →
    Except PdError (List (String × List Cell))
  | [], _ => .ok []
  | _, [] => .ok []
  | fld :: flds, (c, vals) :: rest =>
    match coerceOne fld.ftype vals with
    | .error e => .error e
    | .ok vals' =>
      match coerceCols flds rest with
      | .error e => .error e
      | .ok rest' => .ok ((c, vals') :: rest')

def maxRowWidth (rows : List (List Cell)) : Nat :=
  rows.foldr (fun r acc => max r.length acc) 0

/-- Transpose padded positional rows into the `i`-th column. -/
def columnAt (rows : List (List Cell)) (i : Nat) : List Cell :=
  rows.map (fun r => r.getD i .nan)

def buildColumns (columns : List String) (rows : List (List Cell)) :
    List (String × List Cell) :=
  (List.range columns.length).map
    (fun i => (columns.getD i "", columnAt rows i))

/-- `to_pandas_df` (datafarm.py lines 20-52).  `pd.read_json(..,
orient="values")` builds a frame whose width is the longest row, padding
shorter rows with `NaN`; `df.columns = columns` then raises on a length
mismatch; declared  types are reconciled; finally the first primary key
becomes the index. -/
def to_pandas_df (doc : TableDocument) : Except PdError PdFrame :=
  match doc.schema with
  | none => .error .missingSchema
  | some schema =>
    let columns := schema.fields.map (·.name)
    match doc.data with
    | none => .ok ⟨none, columns.map (fun c => (c, []))⟩
    | some rows =>
      let width := maxRowWidth rows
      if columns.length ≠ width then .error .lengthMismatch
      else
        match coerceCols schema.fields (buildColumns columns rows) with
        | .error e => .error e
        | .ok coerced =>
          match schema.primaryKey with
          | [] => .error .indexError
          | pk :: _ =>
            match coerced.find? (·.1 = pk) with
            | none => .error (.keyError pk)
            | some idx => .ok ⟨some idx, coerced.filter (fun p => ¬ p.1 = pk)⟩

/-! ## Insert payload pipeline -/

inductive InsertError where
  | emptyInput
  | noQualityColumn
  | invalidQualityName
  | cannotConvert
  | keyError (k : String)
  | noTimeStampColumn
  | invalidTimeStamp
  | typeError
  | schemaError (col : String)
  | fileNotFound (p : String)
deriving DecidableEq, Repr

def qualityAliases : List String := ["Quality", "QualityLevel", "QualityTxt"]

/-- Keys of `INSERT_SCHEMA.columns` (datafarm.py lines 101-110). -/
def insertSchemaColumns : List String :=
  ["TimeStamp", "QualityLevel", "Confidence", "Data", "Duration", "FilePath"]

def lookupQ (qmap : List (String × Int)) (s : String) : Option Int :=
  (qmap.find? (·.1 = s)).map (·.2)

/-- `quality_name_to_level[x]` applied to one cell: non-string cells are
never dictionary keys here, so they raise just like unknown names (the code
catches `KeyError` and re-raises its own). -/
def qualityLookupCell (qmap : List (String × Int)) : Cell → Except InsertError Cell
  | .str s =>
    match lookupQ qmap s with
    | some l => .ok (.int l)
    | none => .error .invalidQualityName
  | _ => .error .invalidQualityName

/-- `column.astype(int)`: floats truncate toward zero, missing values raise
`ValueError`. -/
def astypeIntCell : Cell → Except InsertError Cell
  | .int n => .ok (.int n)
  | .float q => .ok (.int (q.num.tdiv q.den))
  | .bool b => .ok (.int (if b then 1 else 0))
  | _ => .error .cannotConvert

/-- Lines 233-255: locate the first quality-alias column (in column order),
convert names to levels when the column holds strings, cast to int
otherwise, and rename it to `QualityLevel`. -/
def qualityStep (qmap : List (String × Int)) (f : Frame) : Except InsertError Frame :=
  match f.cols.find? (fun p => qualityAliases.contains p.1) with
  | none => .error .noQualityColumn
  | some (q, col) =>
    match (if col.any Cell.isStr then mapE (qualityLookupCell qmap) col
           else mapE astypeIntCell col) with
    | .error e => .error e
    | .ok col' => .ok ((f.set q col').rename q "QualityLevel")

/-- Line 257: `insert_data["Data"] = insert_data["Data"].astype(float)` —
reading a missing `Data` column raises `KeyError("Data")`. -/
def dataAstypeStep (f : Frame) : Except InsertError Frame :=
  match f.get? "Data" with
  | none => .error (.keyError "Data")
  | some col =>
    match mapE (fun c => (astypeFloatCell c).mapError fun _ => InsertError.cannotConvert) col with
    | .error e => .error e
    | .ok col' => .ok (f.set "Data" col')

/-- Lines 259-263: the columns named in the `not allowed to insert` warning
(a warning is logged exactly when this list is nonempty; nothing is
dropped). -/
def unknownColumns (f : Frame) : List String :=
  f.names.filter (fun n => ¬ insertSchemaColumns.contains n)

/-- `_parse_datetime` on one `TimeStamp` cell.  `pd.to_datetime` on a
missing value gives `NaT`, whose isoformat is the string `"NaT"`; integers
and floats are epoch nanoseconds; booleans and wire structures raise
`TypeError`. -/
def parseDatetimeCell : Cell → Except DTErr String
  | .str s =>
    match parseIso s with
    | some t => .ok (isoformatMs t ++ "Z")
    | none => .error .parseError
  | .dtMs n => .ok (isoformatMs (civilFromMillis n) ++ "Z")
  | .int n => .ok (isoformatMs (civilFromMillis (Int.fdiv n 1000000)) ++ "Z")
  | .float q => .ok (isoformatMs (civilFromMillis (Int.fdiv ⌊q⌋ 1000000)) ++ "Z")
  | .nan => .ok "NaTZ"
  | .null => .ok "NaTZ"
  | _ => .error .typeError

/-- Lines 265-271: normalize every `TimeStamp` value; a missing column or a
parse failure is re-raised with the messages from the source. -/
def timestampStep (f : Frame) : Except InsertError Frame :=
  match f.get? "TimeStamp" with
  | none => .error .noTimeStampColumn
  | some col =>
    match mapE (fun c =>
        match parseDatetimeCell c with
        | .ok s => .ok (Cell.str s)
        | .error .parseError => .error InsertError.invalidTimeStamp
        | .error .typeError => .error InsertError.typeError) col with
    | .error e => .error e
    | .ok col' => .ok (f.set "TimeStamp" col')

/-- `INSERT_SCHEMA.validate` (pandera, non-strict): required columns must be
present with their declared dtype, optional ones are checked when present,
extra columns are ignored.  `pa.Int` demands an integer dtype (a column that
held nulls has become float and fails); nullable `pa.Float` admits `NaN`. -/
def colOk (f : Frame) (n : String) (p : Cell → Bool) (required : Bool) : Bool :=
  match f.get? n with
  | none => !required
  | some col => col.all p

def validateStep (f : Frame) : Except InsertError Frame :=
  if ¬ colOk f "TimeStamp" Cell.isStr true then .error (.schemaError "TimeStamp")
  else if ¬ colOk f "QualityLevel" Cell.isInt true then .error (.schemaError "QualityLevel")
  else if ¬ colOk f "Confidence" Cell.isInt false then .error (.schemaError "Confidence")
  else if ¬ colOk f "Data" Cell.isFloatLike false then .error (.schemaError "Data")
  else if ¬ colOk f "Duration" Cell.isInt false then .error (.schemaError "Duration")
  else if ¬ colOk f "FilePath" Cell.isStr false then .error (.schemaError "FilePath")
  else .ok f

def base64Chars : List Char :=
  "ABCDEFGHIJKLMNOPQRSTUVWXYZabcdefghijklmnopqrstuvwxyz0123456789+/".toList

def b64Digit (n : Nat) : Char := base64Chars.getD n 'A'

def base64Encode : List Nat → String
  | [] => ""
  | [a] =>
    String.mk [b64Digit (a / 4), b64Digit (a % 4 * 16)] ++ "=="
  | [a, b] =>
    String.mk [b64Digit (a / 4), b64Digit (a % 4 * 16 + b / 16), b64Digit (b % 16 * 4)] ++ "="
  | a :: b :: c :: rest =>
    String.mk [b64Digit (a / 4), b64Digit (a % 4 * 16 + b / 16),
      b64Digit (b % 16 * 4 + c / 64), b64Digit (c % 64)] ++ base64Encode rest

/-- `os.path.basename`. -/
def basename (p : String) : String :=
  match (p.splitOn "/").reverse with
  | last :: _ => last
  | [] => p

def basenameCell : Cell → Except InsertError Cell
  | .str s => .ok (.str (basename s))
  | _ => .error .typeError

def readFileCell (fs : String → Option (List Nat)) : Cell → Except InsertError Cell
  | .str p =>
    match fs p with
    | some bytes => .ok (.bytes (base64Encode bytes))
    | none => .error (.fileNotFound p)
  | _ => .error .typeError

/-- Lines 275-288: attach files — base name column, base64 content column,
then drop `FilePath`. -/
def filePathStep (fs : String → Option (List Nat)) (f : Frame) : Except InsertError Frame :=
  match f.get? "FilePath" with
  | none => .ok f
  | some col =>
    match mapE basenameCell col with
    | .error e => .error e
    | .ok names =>
      let f1 := f.set "ObjectFileName" names
      match mapE (readFileCell fs) col with
      | .error e => .error e
      | .ok contents => .ok ((f1.set "ObjectBase64" contents).drop "FilePath")

/-- `_format_float` (lines 545-550): `None`/`NaN` become `{N:1, V:0.0}`,
anything numeric becomes `{N:0, V:float(x)}`; `np.isnan` raises `TypeError`
on non-numbers. -/
def _format_float : Cell → Except InsertError Cell
  | .null => .ok (.pair 1 0)
  | .nan => .ok (.pair 1 0)
  | .float q => .ok (.pair 0 q)
  | .int n => .ok (.pair 0 n)
  | .bool b => .ok (.pair 0 (if b then 1 else 0))
  | _ => .error .typeError

/-- Lines 290-299: apply `_format_float` to a numeric column when present. -/
def formatStep (n : String) (f : Frame) : Except InsertError Frame :=
  match f.get? n with
  | none => .ok f
  | some col =>
    match mapE _format_float col with
    | .error e => .error e
    | .ok col' => .ok (f.set n col')

/-- `_prepare_insert_data` (lines 224-301) on the value level, returning the
prepared frame together with the names the unknown-column warning listed
(empty list = no warning). -/
def _prepare_insert_data (fs : String → Option (List Nat))
    (qmap : List (String × Int)) (data : Frame) :
    Except InsertError (Frame × List String) :=
  if data.isEmpty then .error .emptyInput
  else
    match qualityStep qmap data with
    | .error e => .error e
    | .ok f1 =>
      match dataAstypeStep f1 with
      | .error e => .error e
      | .ok f2 =>
        let warns := unknownColumns f2
        match timestampStep f2 with
        | .error e => .error e
        | .ok f3 =>
          match validateStep f3 with
          | .error e => .error e
          | .ok _ =>
            match filePathStep fs f3 with
            | .error e => .error e
            | .ok f4 =>
              match formatStep "Data" f4 with
              | .error e => .error e
              | .ok f5 =>
                match formatStep "Confidence" f5 with
                | .error e => .error e
                | .ok f6 =>
                  match formatStep "Duration" f6 with
                  | .error e => .error e
                  | .ok f7 => .ok (f7, warns)

structure InsertBody where
  bulkInsert : Bool
  timeSeriesName : String
  cols : List (String × List Cell)
deriving DecidableEq, Repr

/-- `_get_insert_data_body` (lines 198-222): the prepared columns are merged
verbatim into the wire body. -/
def _get_insert_data_body (fs : String → Option (List Nat))
    (qmap : List (String × Int)) (time_series_id : String) (data : Frame)
    (bulk_insert : Bool) : Except InsertError (InsertBody × List String) :=
  match _prepare_insert_data fs qmap data with
  | .error e => .error e
  | .ok (f, warns) => .ok (⟨bulk_insert, time_series_id, f.cols⟩, warns)

/-! ## Object-level run of `_prepare_insert_data`

Python frames are heap objects and several of the pipeline's statements
mutate `insert_data` in place (`rename(inplace=True)`, column assignment,
`del`).  To talk about mutation of the *caller's* frame, the function is
re-run over an explicit heap: `data.copy()` allocates a fresh object and
every subsequent in-place statement writes to that object only. -/

structure Heap where
  next : Nat
  mem : Nat → Frame

def Heap.write (h : Heap) (r : Nat) (f : Frame) : Heap :=
  ⟨h.next, fun i => if i = r then f else h.mem i⟩

def Heap.alloc (h : Heap) (f : Frame) : Heap × Nat :=
  (⟨h.next + 1, fun i => if i = h.next then f else h.mem i⟩, h.next)

/-- Run a list of pipeline stages against the frame object at `r`, writing
the object back after each successful stage (a raise leaves the heap as the
last completed write left it). -/
def runStepsH (r : Nat) : List (Frame → Except InsertError Frame) → Heap →
    Heap × Except InsertError Unit
  | [], h => (h, .ok ())
  | s :: rest, h =>
    match s (h.mem r) with
    | .error e => (h, .error e)
    | .ok f => runStepsH r rest (h.write r f)

def insertSteps (fs : String → Option (List Nat)) (qmap : List (String × Int)) :
    List (Frame → Except InsertError Frame) :=
  [qualityStep qmap, dataAstypeStep, timestampStep, validateStep,
   filePathStep fs, formatStep "Data", formatStep "Confidence", formatStep "Duration"]

/-- `_prepare_insert_data` with the heap explicit: copy the caller's frame,
then run every mutating stage against the copy.  Returns the final heap and
either the reference of the prepared frame or the raised error. -/
def prepareInsertDataProg (fs : String → Option (List Nat))
    (qmap : List (String × Int)) (h : Heap) (dataRef : Nat) :
    Heap × Except InsertError Nat :=
  let a := h.alloc (h.mem dataRef)
  if (a.1.mem dataRef).isEmpty then (a.1, .error .emptyInput)
  else
    match runStepsH a.2 (insertSteps fs qmap) a.1 with
    | (h', .ok ()) => (h', .ok a.2)
    | (h', .error e) => (h', .error e)

/-- `_get_insert_data_body` with the heap explicit: prepare, then read the
prepared object to build the wire body (no further writes). -/
def getInsertDataBodyProg (fs : String → Option (List Nat))
    (qmap : List (String × Int)) (time_series_id : String) (h : Heap)
    (dataRef : Nat) (bulk_insert : Bool) : Heap × Except InsertError InsertBody :=
  match prepareInsertDataProg fs qmap h dataRef with
  | (h', .ok r) => (h', .ok ⟨bulk_insert, time_series_id, (h'.mem r).cols⟩)
  | (h', .error e) => (h', .error e)

/-! ## Session retry wrapper and `update_data_quality` -/

inductive CallResult where
  | ok (v : Nat)
  | httpError (status : Nat)
deriving DecidableEq, Repr

inductive AuthOutcome where
  | ok (v : Nat)
  | err (status : Nat)
  | connectError
  | valueError
  | indexError
  | typeError
deriving DecidableEq, Repr

/-- `ensure_auth` (lines 61-76) around one authenticated operation.
`attempts k` is the HTTP outcome of the `k`-th invocation of the wrapped
call, `connectOk` whether a `connect()` issued now would succeed.  Returns
the outcome together with the number of `connect()` calls performed. -/
def ensure_auth (connected : Bool) (connectOk : Bool)
    (attempts : Nat → CallResult) : AuthOutcome × Nat :=
  match attempts 0 with
  | .ok v => (.ok v, 0)
  | .httpError s =>
    if s = 401 ∧ connected then
      if connectOk then
        match attempts 1 with
        | .ok v => (.ok v, 1)
        | .httpError s2 => (.err s2, 1)
      else (.connectError, 1)
    else (.err s, 0)

inductive QCell where
  | name (s : String)
  | level (n : Int)
deriving DecidableEq, Repr

def QCell.isName : QCell → Bool
  | .name _ => true
  | _ => false

/-- `update_data_quality` (lines 382-425).  Note: the method carries the
session's `_connected` flag but is *not* decorated with `@ensure_auth`, so
the single `POST` at the end is attempted exactly once and no `connect()`
ever happens inside it. -/
def update_data_quality (_connected : Bool) (qmap : List (String × Int))
    (timestamps : List DTInput) (quality : QCell ⊕ List QCell)
    (post : Nat → CallResult) : AuthOutcome × Nat :=
  let ql := match quality with
    | .inl q => List.replicate timestamps.length q
    | .inr l => l
  if ql.length ≠ timestamps.length then (.valueError, 0)
  else
    match ql with
    | [] => (.indexError, 0)
    | q0 :: _ =>
      let lifted : Except Unit (List QCell) :=
        if q0.isName then
          match mapE (fun q =>
              match q with
              | QCell.name s =>
                match lookupQ qmap s with
                | some l => .ok (QCell.level l)
                | none => .error ()
              | QCell.level _ => .error ()) ql with
          | .ok l => .ok l
          | .error _ => .error ()
        else .ok ql
      match lifted with
      | .error _ => (.valueError, 0)
      | .ok _ =>
        match mapE _parse_datetime timestamps with
        | .error .parseError => (.valueError, 0)
        | .error .typeError => (.typeError, 0)
        | .ok _ =>
          match post 0 with
          | .ok v => (.ok v, 0)
          | .httpError s => (.err s, 0)

/-! ## Frame lemmas -/

theorem Frame.get?_set_ne (f : Frame) (n col) {c : String} (hc : c ≠ n) :
    (f.set n col).get? c = f.get? c := by
  unfold Frame.set Frame.get?
  split
  · congr 1
    rw [List.find?_map]
    have hpred : ((fun p : String × List Cell => decide (p.1 = c)) ∘
        (fun p => if p.1 = n then (n, col) else p))
        = fun p : String × List Cell => decide (p.1 = c) := by
      funext p
      by_cases hp : p.1 = n
      · simp [hp, Ne.symm hc]
      · simp [hp]
    rw [hpred]
    cases hfind : f.cols.find? (fun p => decide (p.1 = c)) with
    | none => rfl
    | some a =>
      have ha := List.find?_some hfind
      simp only [decide_eq_true_eq] at ha
      have hn : ¬ a.1 = n := by rw [ha]; exact hc
      simp [hn]
  · congr 1
    rw [List.find?_append]
    have : List.find? (fun p : String × List Cell => decide (p.1 = c)) [(n, col)] = none := by
      simp [Ne.symm hc]
    rw [this, Option.or_none]

theorem Frame.get?_set_self (f : Frame) (n col) :
    (f.set n col).get? n = some col := by
  unfold Frame.set Frame.get?
  split
  · rename_i hany
    rw [List.find?_map]
    have hpred : ((fun p : String × List Cell => decide (p.1 = n)) ∘
        (fun p => if p.1 = n then (n, col) else p))
        = fun p : String × List Cell => decide (p.1 = n) := by
      funext p
      by_cases hp : p.1 = n
      · simp [hp]
      · simp [hp]
    rw [hpred]
    rw [List.any_eq_true] at hany
    obtain ⟨p, hp, hpn⟩ := hany
    have hsome : (f.cols.find? (fun p => decide (p.1 = n))).isSome := by
      rw [List.find?_isSome]
      exact ⟨p, hp, hpn⟩
    obtain ⟨a, ha⟩ := Option.isSome_iff_exists.mp hsome
    have hak := List.find?_some ha
    simp only [decide_eq_true_eq] at hak
    rw [ha]
    simp [hak]
  · rename_i hany
    rw [List.find?_append]
    have h1 : f.cols.find? (fun p => decide (p.1 = n)) = none := by
      rw [List.find?_eq_none]
      intro x hx
      simp only [decide_eq_true_eq]
      intro hxn
      exact hany (List.any_eq_true.mpr ⟨x, hx, by simp [hxn]⟩)
    rw [h1, Option.none_or]
    simp

theorem Frame.get?_rename_ne (f : Frame) (old new : String) {c : String}
    (hold : c ≠ old) (hnew : c ≠ new) :
    (f.rename old new).get? c = f.get? c := by
  unfold Frame.rename Frame.get?
  congr 1
  rw [List.find?_map]
  have hpred : ((fun p : String × List Cell => decide (p.1 = c)) ∘
      (fun p => if p.1 = old then (new, p.2) else p))
      = fun p : String × List Cell => decide (p.1 = c) := by
    funext p
    simp only [Function.comp_apply]
    by_cases hp : p.1 = old
    · rw [if_pos hp]
      have h1 : ¬ ((new, p.2).1 = c) := fun h => hnew h.symm
      have h2 : ¬ (p.1 = c) := fun h => hold (h ▸ hp)
      simp [h1, h2]
    · simp [hp]
  rw [hpred]
  cases hfind : f.cols.find? (fun p => decide (p.1 = c)) with
  | none => rfl
  | some a =>
    have ha := List.find?_some hfind
    simp only [decide_eq_true_eq] at ha
    have hn : ¬ a.1 = old := by rw [ha]; exact hold
    simp [hn]

theorem Frame.get?_drop_ne (f : Frame) (n : String) {c : String} (hc : c ≠ n) :
    (f.drop n).get? c = f.get? c := by
  unfold Frame.drop Frame.get?
  congr 1
  rw [List.find?_filter]
  congr 1
  funext p
  by_cases hp : p.1 = c
  · simp [hp, hc]
  · simp [hp]

theorem Frame.mem_names_set (f : Frame) (n col) {c : String} (hc : c ∈ f.names) :
    c ∈ (f.set n col).names := by
  unfold Frame.set Frame.names at *
  split
  · have : (f.cols.map fun p => if p.1 = n then (n, col) else p).map (·.1) = f.cols.map (·.1) := by
      rw [List.map_map]
      apply List.map_congr_left
      intro p _
      by_cases hp : p.1 = n <;> simp [hp]
    rw [this]; exact hc
  · simp only [List.map_append]
    exact List.mem_append_left _ hc

theorem Frame.mem_names_rename (f : Frame) (old new : String) {c : String}
    (hc : c ∈ f.names) (hold : c ≠ old) :
    c ∈ (f.rename old new).names := by
  unfold Frame.rename Frame.names at *
  rw [List.mem_map] at hc
  obtain ⟨p, hp, hpc⟩ := hc
  rw [List.map_map, List.mem_map]
  refine ⟨p, hp, ?_⟩
  simp only [Function.comp_apply]
  by_cases h : p.1 = old
  · exact absurd (hpc ▸ h) hold
  · rw [if_neg h]
    exact hpc

theorem Frame.mem_names_drop (f : Frame) (n : String) {c : String}
    (hc : c ∈ f.names) (hne : c ≠ n) :
    c ∈ (f.drop n).names := by
  unfold Frame.drop Frame.names at *
  rw [List.mem_map] at hc
  obtain ⟨p, hp, hpc⟩ := hc
  rw [List.mem_map]
  refine ⟨p, ?_, hpc⟩
  rw [List.mem_filter]
  exact ⟨hp, by simp [hpc ▸ hne]⟩

/-! ## Step lemmas for the insert pipeline -/

theorem qualityStep_ok_shape {qmap f f'} (h : qualityStep qmap f = .ok f') :
    ∃ q col col', f.cols.find? (fun p => qualityAliases.contains p.1) = some (q, col) ∧
      q ∈ qualityAliases ∧
      f' = (f.set q col').rename q "QualityLevel" := by
  unfold qualityStep at h
  cases hfind : f.cols.find? (fun p => qualityAliases.contains p.1) with
  | none => rw [hfind] at h; exact absurd h (by simp)
  | some p =>
    rw [hfind] at h
    obtain ⟨q, col⟩ := p
    have hq : q ∈ qualityAliases := by
      have := List.find?_some hfind
      simpa using this
    dsimp only at h
    cases hmap : (if col.any Cell.isStr then mapE (qualityLookupCell qmap) col
        else mapE astypeIntCell col) with
    | error e => rw [hmap] at h; exact absurd h (by simp)
    | ok col' =>
      rw [hmap] at h
      simp only [Except.ok.injEq] at h
      exact ⟨q, col, col', rfl, hq, h.symm⟩

theorem qualityStep_get?_ne {qmap f f'} (h : qualityStep qmap f = .ok f') {c : String}
    (hc : c ∉ qualityAliases) (hql : c ≠ "QualityLevel") :
    f'.get? c = f.get? c := by
  obtain ⟨q, col, col', _, hq, hf'⟩ := qualityStep_ok_shape h
  have hcq : c ≠ q := fun hh => hc (hh ▸ hq)
  rw [hf', Frame.get?_rename_ne _ _ _ hcq hql, Frame.get?_set_ne _ _ _ hcq]

theorem qualityStep_mem_names {qmap f f'} (h : qualityStep qmap f = .ok f') {c : String}
    (hmem : c ∈ f.names) (hc : c ∉ qualityAliases) :
    c ∈ f'.names := by
  obtain ⟨q, col, col', _, hq, hf'⟩ := qualityStep_ok_shape h
  have hcq : c ≠ q := fun hh => hc (hh ▸ hq)
  rw [hf']
  exact Frame.mem_names_rename _ _ _ (Frame.mem_names_set _ _ _ hmem) hcq

theorem dataAstypeStep_ok_shape {f f'} (h : dataAstypeStep f = .ok f') :
    ∃ col col', f.get? "Data" = some col ∧
      mapE (fun c => (astypeFloatCell c).mapError fun _ => InsertError.cannotConvert) col
        = .ok col' ∧
      f' = f.set "Data" col' := by
  unfold dataAstypeStep at h
  cases hget : f.get? "Data" with
  | none => rw [hget] at h; exact absurd h (by simp)
  | some col =>
    rw [hget] at h
    dsimp only at h
    cases hmap : mapE (fun c => (astypeFloatCell c).mapError fun _ =>
        InsertError.cannotConvert) col with
    | error e => rw [hmap] at h; exact absurd h (by simp)
    | ok col' =>
      rw [hmap] at h
      simp only [Except.ok.injEq] at h
      exact ⟨col, col', rfl, hmap, h.symm⟩

theorem dataAstypeStep_get?_ne {f f'} (h : dataAstypeStep f = .ok f') {c : String}
    (hc : c ≠ "Data") : f'.get? c = f.get? c := by
  obtain ⟨col, col', _, _, hf'⟩ := dataAstypeStep_ok_shape h
  rw [hf', Frame.get?_set_ne _ _ _ hc]

theorem dataAstypeStep_mem_names {f f'} (h : dataAstypeStep f = .ok f') {c : String}
    (hmem : c ∈ f.names) : c ∈ f'.names := by
  obtain ⟨col, col', _, _, hf'⟩ := dataAstypeStep_ok_shape h
  rw [hf']
  exact Frame.mem_names_set _ _ _ hmem

theorem timestampStep_ok_shape {f f'} (h : timestampStep f = .ok f') :
    ∃ col col', f.get? "TimeStamp" = some col ∧ f' = f.set "TimeStamp" col' := by
  unfold timestampStep at h
  cases hget : f.get? "TimeStamp" with
  | none => rw [hget] at h; exact absurd h (by simp)
  | some col =>
    rw [hget] at h
    dsimp only at h
    cases hmap : mapE (fun c =>
        match parseDatetimeCell c with
        | .ok s => .ok (Cell.str s)
        | .error .parseError => .error InsertError.invalidTimeStamp
        | .error .typeError => .error InsertError.typeError) col with
    | error e => rw [hmap] at h; exact absurd h (by simp)
    | ok col' =>
      rw [hmap] at h
      simp only [Except.ok.injEq] at h
      exact ⟨col, col', rfl, h.symm⟩

theorem timestampStep_get?_ne {f f'} (h : timestampStep f = .ok f') {c : String}
    (hc : c ≠ "TimeStamp") : f'.get? c = f.get? c := by
  obtain ⟨col, col', _, hf'⟩ := timestampStep_ok_shape h
  rw [hf', Frame.get?_set_ne _ _ _ hc]

theorem timestampStep_mem_names {f f'} (h : timestampStep f = .ok f') {c : String}
    (hmem : c ∈ f.names) : c ∈ f'.names := by
  obtain ⟨col, col', _, hf'⟩ := timestampStep_ok_shape h
  rw [hf']
  exact Frame.mem_names_set _ _ _ hmem

theorem validateStep_ok_eq {f f'} (h : validateStep f = .ok f') : f' = f := by
  unfold validateStep at h
  split at h
  · exact absurd h (by simp)
  · split at h
    · exact absurd h (by simp)
    · split at h
      · exact absurd h (by simp)
      · split at h
        · exact absurd h (by simp)
        · split at h
          · exact absurd h (by simp)
          · split at h
            · exact absurd h (by simp)
            · simp only [Except.ok.injEq] at h
              exact h.symm

theorem filePathStep_ok_shape {fs f f'} (h : filePathStep fs f = .ok f') :
    f' = f ∨ ∃ col names contents, f.get? "FilePath" = some col ∧
      f' = ((f.set "ObjectFileName" names).set "ObjectBase64" contents).drop "FilePath" := by
  unfold filePathStep at h
  cases hget : f.get? "FilePath" with
  | none =>
    rw [hget] at h
    simp only [Except.ok.injEq] at h
    exact .inl h.symm
  | some col =>
    rw [hget] at h
    dsimp only at h
    cases hn : mapE basenameCell col with
    | error e => rw [hn] at h; exact absurd h (by simp)
    | ok names =>
      rw [hn] at h
      cases hc : mapE (readFileCell fs) col with
      | error e => rw [hc] at h; exact absurd h (by simp)
      | ok contents =>
        rw [hc] at h
        simp only [Except.ok.injEq] at h
        exact .inr ⟨col, names, contents, rfl, h.symm⟩

theorem filePathStep_get?_ne {fs f f'} (h : filePathStep fs f = .ok f') {c : String}
    (h1 : c ≠ "FilePath") (h2 : c ≠ "ObjectFileName") (h3 : c ≠ "ObjectBase64") :
    f'.get? c = f.get? c := by
  rcases filePathStep_ok_shape h with hf' | ⟨col, names, contents, _, hf'⟩
  · rw [hf']
  · rw [hf', Frame.get?_drop_ne _ _ h1, Frame.get?_set_ne _ _ _ h3,
      Frame.get?_set_ne _ _ _ h2]

theorem filePathStep_mem_names {fs f f'} (h : filePathStep fs f = .ok f') {c : String}
    (hmem : c ∈ f.names) (h1 : c ≠ "FilePath") : c ∈ f'.names := by
  rcases filePathStep_ok_shape h with hf' | ⟨col, names, contents, _, hf'⟩
  · rw [hf']; exact hmem
  · rw [hf']
    exact Frame.mem_names_drop _ _
      (Frame.mem_names_set _ _ _ (Frame.mem_names_set _ _ _ hmem)) h1

theorem formatStep_ok_shape {n f f'} (h : formatStep n f = .ok f') :
    (f.get? n = none ∧ f' = f) ∨
    ∃ col col', f.get? n = some col ∧ mapE _format_float col = .ok col' ∧
      f' = f.set n col' := by
  unfold formatStep at h
  cases hget : f.get? n with
  | none =>
    rw [hget] at h
    simp only [Except.ok.injEq] at h
    exact .inl ⟨rfl, h.symm⟩
  | some col =>
    rw [hget] at h
    dsimp only at h
    cases hmap : mapE _format_float col with
    | error e => rw [hmap] at h; exact absurd h (by simp)
    | ok col' =>
      rw [hmap] at h
      simp only [Except.ok.injEq] at h
      exact .inr ⟨col, col', rfl, hmap, h.symm⟩

theorem formatStep_get?_ne {n f f'} (h : formatStep n f = .ok f') {c : String}
    (hc : c ≠ n) : f'.get? c = f.get? c := by
  rcases formatStep_ok_shape h with ⟨_, hf'⟩ | ⟨col, col', _, _, hf'⟩
  · rw [hf']
  · rw [hf', Frame.get?_set_ne _ _ _ hc]

theorem formatStep_mem_names {n f f'} (h : formatStep n f = .ok f') {c : String}
    (hmem : c ∈ f.names) : c ∈ f'.names := by
  rcases formatStep_ok_shape h with ⟨_, hf'⟩ | ⟨col, col', _, _, hf'⟩
  · rw [hf']; exact hmem
  · rw [hf']; exact Frame.mem_names_set _ _ _ hmem

theorem formatStep_get?_self {n f f'} (h : formatStep n f = .ok f') {col : List Cell}
    (hget : f.get? n = some col) :
    ∃ col', mapE _format_float col = .ok col' ∧ f'.get? n = some col' := by
  rcases formatStep_ok_shape h with ⟨hnone, _⟩ | ⟨col0, col', hget0, hmap, hf'⟩
  · rw [hget] at hnone; exact absurd hnone (by simp)
  · rw [hget] at hget0
    cases hget0
    exact ⟨col', hmap, by rw [hf']; exact Frame.get?_set_self _ _ _⟩

/-! ## Decoder lemmas -/

theorem map_getD_range (l : List String) (d : String) :
    (List.range l.length).map (fun i => l.getD i d) = l := by
  induction l with
  | nil => rfl
  | cons a t ih =>
    rw [List.length_cons, List.range_succ_eq_map, List.map_cons, List.map_map]
    exact congrArg (List.cons a) ih

theorem buildColumns_map_fst (cols : List String) (rows : List (List Cell)) :
    (buildColumns cols rows).map (·.1) = cols := by
  unfold buildColumns
  rw [List.map_map]
  exact map_getD_range cols ""

theorem buildColumns_length (cols : List String) (rows : List (List Cell)) :
    (buildColumns cols rows).length = cols.length := by
  unfold buildColumns
  rw [List.length_map, List.length_range]

theorem buildColumns_col_length (cols : List String) (rows : List (List Cell)) :
    ∀ p ∈ buildColumns cols rows, p.2.length = rows.length := by
  intro p hp
  unfold buildColumns at hp
  rw [List.mem_map] at hp
  obtain ⟨i, _, hip⟩ := hp
  rw [← hip]
  unfold columnAt
  exact List.length_map _ _

theorem coerceOne_length {t : String} {vals vals' : List Cell}
    (h : coerceOne t vals = .ok vals') : vals'.length = vals.length := by
  unfold coerceOne at h
  split at h
  · simp only [Except.ok.injEq] at h; rw [← h]
  · split at h
    · exact mapE_ok_length _ _ _ h
    · split at h
      · exact mapE_ok_length _ _ _ h
      · simp only [Except.ok.injEq] at h; rw [← h]

theorem coerceCols_keyLen :
    ∀ (flds : List SchemaField) (cvs out : List (String × List Cell)),
    coerceCols flds cvs = .ok out → flds.length = cvs.length →
    out.map (fun p => (p.1, p.2.length)) = cvs.map (fun p => (p.1, p.2.length)) := by
  intro flds
  induction flds with
  | nil =>
    intro cvs out h hlen
    cases cvs with
    | nil => simp only [coerceCols, Except.ok.injEq] at h; rw [← h]
    | cons p t => simp at hlen
  | cons fld flds ih =>
    intro cvs out h hlen
    cases cvs with
    | nil => simp at hlen
    | cons p t =>
      obtain ⟨c, vals⟩ := p
      simp only [coerceCols] at h
      cases hco : coerceOne fld.ftype vals with
      | error e => rw [hco] at h; exact absurd h (by simp)
      | ok vals' =>
        rw [hco] at h
        cases hrest : coerceCols flds t with
        | error e => rw [hrest] at h; exact absurd h (by simp)
        | ok rest' =>
          rw [hrest] at h
          simp only [Except.ok.injEq] at h
          rw [← h]
          simp only [List.map_cons]
          rw [coerceOne_length hco, ih t rest' hrest (by simpa using hlen)]

theorem coerceCols_map_fst {flds : List SchemaField} {cvs out : List (String × List Cell)}
    (h : coerceCols flds cvs = .ok out) (hlen : flds.length = cvs.length) :
    out.map (·.1) = cvs.map (·.1) := by
  have hk := coerceCols_keyLen flds cvs out h hlen
  have := congrArg (List.map (fun q : String × Nat => q.1)) hk
  rw [List.map_map, List.map_map] at this
  exact this

theorem map_fst_filter_key (l : List (String × List Cell)) (pk : String) :
    (l.filter (fun p => ¬ p.1 = pk)).map (·.1)
      = (l.map (·.1)).filter (fun n => ¬ n = pk) := by
  induction l with
  | nil => rfl
  | cons p t ih =>
    simp only [List.filter_cons, List.map_cons, decide_not] at ih ⊢
    by_cases hp : p.1 = pk <;> simp [hp, ih]

/-- Shared: `df.columns = columns` raises `ValueError` whenever the widest
row disagrees with the declared field count. -/
theorem decode_length_mismatch (schema : TableSchema) (rows : List (List Cell))
    (h : maxRowWidth rows ≠ schema.fields.length) :
    to_pandas_df ⟨some schema, some rows⟩ = .error .lengthMismatch := by
  unfold to_pandas_df
  dsimp only
  rw [if_pos]
  rw [List.length_map]
  exact fun hh => h hh.symm

/-- Shared: anatomy of a successful decode with data present. -/
theorem decode_ok_shape (schema : TableSchema) (rows : List (List Cell)) (df : PdFrame)
    (h : to_pandas_df ⟨some schema, some rows⟩ = .ok df) :
    ∃ coerced pk pks idx,
      (schema.fields.map (·.name)).length = maxRowWidth rows ∧
      coerceCols schema.fields (buildColumns (schema.fields.map (·.name)) rows)
        = .ok coerced ∧
      schema.primaryKey = pk :: pks ∧
      coerced.find? (fun p => p.1 = pk) = some idx ∧ idx.1 = pk ∧
      df = ⟨some idx, coerced.filter (fun p => ¬ p.1 = pk)⟩ := by
  unfold to_pandas_df at h
  dsimp only at h
  split at h
  · exact absurd h (by simp)
  · cases hco : coerceCols schema.fields
        (buildColumns (schema.fields.map (·.name)) rows) with
    | error e => rw [hco] at h; exact absurd h (by simp)
    | ok coerced =>
      rw [hco] at h
      dsimp only at h
      cases hpk : schema.primaryKey with
      | nil => rw [hpk] at h; exact absurd h (by simp)
      | cons pk pks =>
        rw [hpk] at h
        dsimp only at h
        cases hfind : coerced.find? (fun p => p.1 = pk) with
        | none => rw [hfind] at h; exact absurd h (by simp)
        | some idx =>
          rw [hfind] at h
          simp only [Except.ok.injEq] at h
          have hidx : idx.1 = pk := by
            have := List.find?_some hfind
            simpa using this
          rename_i hwidth
          rw [List.length_map] at hwidth ⊢
          exact ⟨coerced, pk, pks, idx, not_ne_iff.mp hwidth, rfl, rfl, hfind, hidx, h.symm⟩

/-! ## Claim theorems: table decoder -/

/-- C8: for a Table Document with a schema block and no `data` key, decode
succeeds and returns a zero-row table whose columns are exactly the declared
field names, primary-key field included, with no index set. -/
theorem c8_no_data (schema : TableSchema) :
    ∃ df, to_pandas_df ⟨some schema, none⟩ = .ok df ∧ df.index = none ∧
      df.nRows = 0 ∧ df.cols.map (·.1) = schema.fields.map (·.name) := by
  have h : to_pandas_df ⟨some schema, none⟩
      = .ok ⟨none, (schema.fields.map (fun fl => fl.name)).map
          (fun c => (c, ([] : List Cell)))⟩ := rfl
  refine ⟨_, h, rfl, ?_, ?_⟩
  · unfold PdFrame.nRows
    cases schema.fields <;> rfl
  · rw [List.map_map]
    simp

/-- C9: a present-but-empty `data` array raises (the frame built from `[]`
has zero columns, so assigning the nonempty declared column list fails with
a length mismatch), unlike an absent `data` key which yields an empty
table. -/
theorem c9_empty_data_errors (schema : TableSchema) (hne : schema.fields ≠ []) :
    to_pandas_df ⟨some schema, some []⟩ = .error .lengthMismatch ∧
    ∃ df, to_pandas_df ⟨some schema, none⟩ = .ok df := by
  constructor
  · apply decode_length_mismatch
    intro h
    exact hne (List.length_eq_zero.mp h.symm)
  · exact ⟨_, rfl⟩

/-- C9 witness: concrete one-field schema with `data = []`. -/
theorem c9_witness :
    to_pandas_df ⟨some ⟨[⟨"A", "string"⟩], ["A"]⟩, some []⟩ = .error .lengthMismatch ∧
    ∃ df, to_pandas_df ⟨some ⟨[⟨"A", "string"⟩], ["A"]⟩, none⟩ = .ok df :=
  c9_empty_data_errors ⟨[⟨"A", "string"⟩], ["A"]⟩ (by decide)

/-- C5 counterexample: a document meeting all of the claim's hypotheses
(schema present, one row of matching arity, first primary key among the
fields) on which decode nonetheless fails, because the string cell in the
`datetime`-declared column `B` makes `pd.to_datetime(.., unit="ms")`
raise. -/
theorem c5_counterexample :
    (∀ r ∈ [[Cell.str "x", Cell.str "y"]], r.length = 2) ∧
    "A" ∈ (([⟨"A", "string"⟩, ⟨"B", "datetime"⟩] : List SchemaField).map (·.name)) ∧
    to_pandas_df ⟨some ⟨[⟨"A", "string"⟩, ⟨"B", "datetime"⟩], ["A"]⟩,
      some [[Cell.str "x", Cell.str "y"]]⟩ = .error .coerceError :=
  ⟨by decide, by decide, rfl⟩

/-- C5 (amended): whenever decode *succeeds* on a document with a schema,
non-empty data of matching arity, and the first primary key among the
fields, the row count equals `len(data)`, the first primary key is the
index, and the ordinary columns are the declared names minus the
primary-key name.  (Success additionally requires the declared-type
coercions to go through; the counterexample shows they can fail.) -/
theorem c5_amended (schema : TableSchema) (rows : List (List Cell)) (pk : String)
    (pks : List String) (df : PdFrame)
    (_hrows : rows ≠ [])
    (_harity : ∀ r ∈ rows, r.length = schema.fields.length)
    (hpk : schema.primaryKey = pk :: pks)
    (_hmem : pk ∈ schema.fields.map (·.name))
    (hok : to_pandas_df ⟨some schema, some rows⟩ = .ok df) :
    df.nRows = rows.length ∧ df.index.map (·.1) = some pk ∧
    df.cols.map (·.1) = (schema.fields.map (·.name)).filter (fun n => ¬ n = pk) := by
  obtain ⟨coerced, pk', pks', idx, hwidth, hco, hpk', hfind, hidx, hdf⟩ :=
    decode_ok_shape _ _ _ hok
  rw [hpk] at hpk'
  injection hpk' with h1 h2
  subst h1
  have hlen : schema.fields.length
      = (buildColumns (schema.fields.map (·.name)) rows).length := by
    rw [buildColumns_length, List.length_map]
  have hkey := coerceCols_keyLen _ _ _ hco hlen
  have hnames : coerced.map (·.1) = schema.fields.map (·.name) := by
    have h := coerceCols_map_fst hco hlen
    rw [buildColumns_map_fst] at h
    exact h
  refine ⟨?_, ?_, ?_⟩
  · rw [hdf]
    unfold PdFrame.nRows
    dsimp only
    have hmemI : idx ∈ coerced := List.mem_of_find?_eq_some hfind
    have hm : (idx.1, idx.2.length) ∈ coerced.map (fun p => (p.1, p.2.length)) :=
      List.mem_map_of_mem _ hmemI
    rw [hkey, List.mem_map] at hm
    obtain ⟨q, hq, hq2⟩ := hm
    have hql := buildColumns_col_length _ _ q hq
    have h2 : q.2.length = idx.2.length := congrArg Prod.snd hq2
    rw [← h2, hql]
  · rw [hdf]
    simp [hidx]
  · rw [hdf]
    dsimp only
    rw [map_fst_filter_key, hnames]

def c5schema : TableSchema :=
  ⟨[⟨"GUID", "string"⟩, ⟨"ID", "integer"⟩, ⟨"EntityID", "string"⟩,
    ⟨"Touched", "datetime"⟩], ["GUID"]⟩

def c5rows : List (List Cell) :=
  [[.str "g1", .int 2, .str "X", .int 1679332722000]]

def c5df : PdFrame :=
  ⟨some ("GUID", [.str "g1"]),
   [("ID", [.int 2]), ("EntityID", [.str "X"]), ("Touched", [.dtMs 1679332722000])]⟩

/-- C5 witness: the amended statement at the metadata-table scenario. -/
theorem c5_witness :
    c5df.nRows = c5rows.length ∧ c5df.index.map (·.1) = some "GUID" ∧
    c5df.cols.map (·.1) = (c5schema.fields.map (·.name)).filter (fun n => ¬ n = "GUID") :=
  c5_amended c5schema c5rows "GUID" [] c5df (by decide) (by decide) rfl (by decide) rfl

/-- C6 counterexample: the second row has arity 1 against 2 declared fields,
yet decode succeeds — pandas pads the short row with `NaN` instead of
failing. -/
theorem c6_counterexample :
    ([Cell.str "c"].length ≠ 2) ∧
    to_pandas_df ⟨some ⟨[⟨"A", "string"⟩, ⟨"B", "string"⟩], ["A"]⟩,
        some [[Cell.str "a", Cell.str "b"], [Cell.str "c"]]⟩
      = .ok ⟨some ("A", [Cell.str "a", Cell.str "c"]), [("B", [Cell.str "b", Cell.nan])]⟩ :=
  ⟨by decide, rfl⟩

/-- C6 (amended): decode fails with the length-mismatch `ValueError` exactly
when the *maximum* row arity disagrees with the declared field count (rows
shorter than the widest are padded with `NaN`, not rejected), and decode
fails when the first primary-key name is absent from the declared fields. -/
theorem c6_amended :
    (∀ (schema : TableSchema) (rows : List (List Cell)),
        maxRowWidth rows ≠ schema.fields.length →
        to_pandas_df ⟨some schema, some rows⟩ = .error .lengthMismatch) ∧
    (∀ (schema : TableSchema) (rows : List (List Cell)) (pk : String) (pks : List String),
        schema.primaryKey = pk :: pks →
        pk ∉ schema.fields.map (·.name) →
        ∃ e, to_pandas_df ⟨some schema, some rows⟩ = .error e) := by
  constructor
  · exact fun s r h => decode_length_mismatch s r h
  · intro schema rows pk pks hpk hmem
    cases hres : to_pandas_df ⟨some schema, some rows⟩ with
    | error e => exact ⟨e, rfl⟩
    | ok df =>
      obtain ⟨coerced, pk', pks', idx, _, hco, hpk', hfind, hidx, _⟩ :=
        decode_ok_shape _ _ _ hres
      rw [hpk] at hpk'
      injection hpk' with h1 h2
      subst h1
      have hmemI : idx ∈ coerced := List.mem_of_find?_eq_some hfind
      have hlen : schema.fields.length
          = (buildColumns (schema.fields.map (·.name)) rows).length := by
        rw [buildColumns_length, List.length_map]
      have hnames : coerced.map (·.1) = schema.fields.map (·.name) := by
        have h := coerceCols_map_fst hco hlen
        rw [buildColumns_map_fst] at h
        exact h
      have hin : idx.1 ∈ coerced.map (·.1) := List.mem_map_of_mem _ hmemI
      rw [hnames, hidx] at hin
      exact absurd hin hmem

/-- C6 witness: both amended error conditions at concrete documents. -/
theorem c6_witness :
    to_pandas_df ⟨some ⟨[⟨"A", "string"⟩, ⟨"B", "string"⟩], ["A"]⟩,
        some [[Cell.str "a"]]⟩ = .error .lengthMismatch ∧
    ∃ e, to_pandas_df ⟨some ⟨[⟨"A", "string"⟩], ["Z"]⟩,
        some [[Cell.str "a"]]⟩ = .error e :=
  ⟨c6_amended.1 _ _ (by decide), c6_amended.2 _ _ "Z" [] rfl (by decide)⟩

/-! ## Claim theorems: datetime normalizer -/

/-- C4 counterexample: on an offset-carrying input the normalizer appends
`Z` to the still-offset-bearing isoformat instead of converting to UTC; the
UTC rendering of the same instant (per the spec's normalizer) differs. -/
theorem c4_counterexample :
    _parse_datetime (.s "2023-05-15T14:30:00+02:00")
      = .ok "2023-05-15T14:30:00.000+02:00Z" ∧
    specNormalize (.s "2023-05-15T14:30:00+02:00")
      = .ok "2023-05-15T12:30:00.000Z" ∧
    ("2023-05-15T14:30:00.000+02:00Z" : String) ≠ "2023-05-15T12:30:00.000Z" :=
  ⟨rfl, rfl, by decide⟩

/-- C4 (amended): the normalizer renders the parsed value at millisecond
precision and appends a literal `Z` with *no* timezone conversion; for
inputs without an offset this coincides with the spec's UTC normalizer (in
particular `"2023-05-15T14:30:00"` yields `"2023-05-15T14:30:00.000Z"`),
while offset-carrying inputs keep their offset in front of the `Z`. -/
theorem c4_amended :
    (∀ (x : DTInput) (t : Timestamp), pd_to_datetime x = .ok t → t.tz = none →
        _parse_datetime x = specNormalize x) ∧
    _parse_datetime (.s "2023-05-15T14:30:00") = .ok "2023-05-15T14:30:00.000Z" := by
  constructor
  · intro x t hparse htz
    unfold _parse_datetime specNormalize toUTC
    rw [hparse]
    dsimp only
    rw [htz]
  · rfl

/-- C4 witness: the amended statement applied at the scenario input. -/
theorem c4_witness :
    _parse_datetime (.s "2023-05-15T14:30:00")
      = specNormalize (.s "2023-05-15T14:30:00") :=
  c4_amended.1 (.s "2023-05-15T14:30:00") ⟨2023, 5, 15, 14, 30, 0, 0, none⟩ rfl rfl

/-! ## Claim theorems: insert pipeline -/

/-- C2: the code contradicts its own optional-`Data` schema.  A one-row
table with `TimeStamp` and `QualityLevel` but no `Data` column — which
`INSERT_SCHEMA` (`Data` is `required=False`) says must validate — makes
`_prepare_insert_data` raise `KeyError("Data")` at the unconditional
`insert_data["Data"].astype(float)` on line 257. -/
theorem c2_missing_data_key_error :
    _prepare_insert_data (fun _ => none) []
      ⟨[("TimeStamp", [.str "2023-05-15T14:30:00"]), ("QualityLevel", [.int 0])]⟩
      = .error (.keyError "Data") := rfl

/-! ## Claim theorems: session retry wrapper -/

def c1att : Nat → CallResult := fun n => if n = 0 then .httpError 401 else .ok 7

/-- C1 counterexample: with a connected session and a server that returns
401 once and then succeeds, an `ensure_auth`-wrapped operation reconnects
once and succeeds, but `update_data_quality` — which the claim includes —
propagates the 401 immediately with zero reconnects: it lacks the
decorator. -/
theorem c1_counterexample :
    update_data_quality true [("ok", 0)] [.s "2023-05-15T14:30:00"]
        (.inl (.level 3)) c1att = (.err 401, 0) ∧
    ensure_auth true true c1att = (.ok 7, 1) ∧
    ((AuthOutcome.err 401, 0) : AuthOutcome × Nat) ≠ (AuthOutcome.ok 7, 1) :=
  ⟨rfl, rfl, by decide⟩

/-- C1 (amended): every `@ensure_auth`-wrapped operation behaves as the
claim states — a 401 while connected triggers exactly one `connect()` and
one retry whose outcome (including a second 401) propagates; a 401 while
never connected, any other failing status, or a first-try success performs
no reconnect — but `update_data_quality` is not wrapped and never performs
a reconnect, so its 401s always propagate immediately. -/
theorem c1_amended :
    (∀ (connectOk : Bool) (attempts : Nat → CallResult),
        attempts 0 = .httpError 401 →
        ensure_auth true connectOk attempts =
          (if connectOk then
            (match attempts 1 with
             | .ok v => (AuthOutcome.ok v, 1)
             | .httpError s2 => (AuthOutcome.err s2, 1))
           else (.connectError, 1))) ∧
    (∀ (connected connectOk : Bool) (attempts : Nat → CallResult) (s : Nat),
        attempts 0 = .httpError s → (s ≠ 401 ∨ connected = false) →
        ensure_auth connected connectOk attempts = (.err s, 0)) ∧
    (∀ (connected connectOk : Bool) (attempts : Nat → CallResult) (v : Nat),
        attempts 0 = .ok v →
        ensure_auth connected connectOk attempts = (.ok v, 0)) ∧
    (∀ (conn : Bool) (qmap : List (String × Int)) (ts : List DTInput)
        (q : QCell ⊕ List QCell) (post : Nat → CallResult),
        (update_data_quality conn qmap ts q post).2 = 0) := by
  refine ⟨?_, ?_, ?_, ?_⟩
  · intro connectOk attempts h
    unfold ensure_auth
    rw [h]
    dsimp only
    rw [if_pos ⟨rfl, rfl⟩]
  · intro connected connectOk attempts s h hcond
    have hneg : ¬ (s = 401 ∧ connected = true) := by
      rintro ⟨h1, h2⟩
      rcases hcond with hc | hc
      · exact hc h1
      · rw [hc] at h2
        exact Bool.false_ne_true h2
    unfold ensure_auth
    rw [h]
    dsimp only
    rw [if_neg hneg]
  · intro connected connectOk attempts v h
    unfold ensure_auth
    rw [h]
  · intro conn qmap ts q post
    unfold update_data_quality
    dsimp only
    repeat' split
    all_goals rfl

/-- C1 witness: the wrapped-operation clause at a concrete failing-connect
run. -/
theorem c1_witness : ensure_auth true false c1att = (.connectError, 1) := by
  have h := c1_amended.1 false c1att rfl
  simpa using h

/-- Anatomy of a successful `_prepare_insert_data` run. -/
theorem prepare_ok_chain {fs qmap data out warns}
    (h : _prepare_insert_data fs qmap data = .ok (out, warns)) :
    ∃ f1 f2 f3 f4 f5 f6,
      qualityStep qmap data = .ok f1 ∧
      dataAstypeStep f1 = .ok f2 ∧
      warns = unknownColumns f2 ∧
      timestampStep f2 = .ok f3 ∧
      validateStep f3 = .ok f3 ∧
      filePathStep fs f3 = .ok f4 ∧
      formatStep "Data" f4 = .ok f5 ∧
      formatStep "Confidence" f5 = .ok f6 ∧
      formatStep "Duration" f6 = .ok out := by
  unfold _prepare_insert_data at h
  split at h
  · exact absurd h (by simp)
  · cases h1 : qualityStep qmap data with
    | error e => rw [h1] at h; exact absurd h (by simp)
    | ok f1 =>
      rw [h1] at h
      dsimp only at h
      cases h2 : dataAstypeStep f1 with
      | error e => rw [h2] at h; exact absurd h (by simp)
      | ok f2 =>
        rw [h2] at h
        dsimp only at h
        cases h3 : timestampStep f2 with
        | error e => rw [h3] at h; exact absurd h (by simp)
        | ok f3 =>
          rw [h3] at h
          dsimp only at h
          cases h4 : validateStep f3 with
          | error e => rw [h4] at h; exact absurd h (by simp)
          | ok fv =>
            rw [h4] at h
            dsimp only at h
            have hfv : fv = f3 := validateStep_ok_eq h4
            rw [hfv] at h4
            cases h5 : filePathStep fs f3 with
            | error e => rw [h5] at h; exact absurd h (by simp)
            | ok f4 =>
              rw [h5] at h
              dsimp only at h
              cases h6 : formatStep "Data" f4 with
              | error e => rw [h6] at h; exact absurd h (by simp)
              | ok f5 =>
                rw [h6] at h
                dsimp only at h
                cases h7 : formatStep "Confidence" f5 with
                | error e => rw [h7] at h; exact absurd h (by simp)
                | ok f6 =>
                  rw [h7] at h
                  dsimp only at h
                  cases h8 : formatStep "Duration" f6 with
                  | error e => rw [h8] at h; exact absurd h (by simp)
                  | ok f7 =>
                    rw [h8] at h
                    simp only [Except.ok.injEq, Prod.mk.injEq] at h
                    obtain ⟨hout, hwarns⟩ := h
                    exact ⟨f1, f2, f3, f4, f5, f6, rfl, h2, hwarns.symm, h3, h4, h5,
                      h6, h7, hout ▸ h8⟩

/-- Pointwise reading of a successful `_format_float` pass. -/
theorem format_pointwise {colIn colOut : List Cell}
    (h : mapE _format_float colIn = .ok colOut) :
    ∀ (i : Nat) (v : Cell), colIn[i]? = some v →
      ((v = .null ∨ v = .nan) → colOut[i]? = some (.pair 1 0)) ∧
      (∀ q, v = .float q → colOut[i]? = some (.pair 0 q)) ∧
      (∀ n, v = .int n → colOut[i]? = some (.pair 0 (n : ℚ))) := by
  intro i v hv
  obtain ⟨w, hw, hwi⟩ := mapE_ok_get _ _ _ h i v hv
  refine ⟨?_, ?_, ?_⟩
  · rintro (rfl | rfl) <;>
    · simp only [_format_float, Except.ok.injEq] at hw
      rw [← hw] at hwi
      exact hwi
  · rintro q rfl
    simp only [_format_float, Except.ok.injEq] at hw
    rw [← hw] at hwi
    exact hwi
  · rintro n rfl
    simp only [_format_float, Except.ok.injEq] at hw
    rw [← hw] at hwi
    exact hwi

/-- Pointwise reading of `astype(float)` followed by `_format_float` (the
`Data` column's path). -/
theorem astype_format_pointwise {colIn colMid colOut : List Cell}
    (h1 : mapE (fun c => (astypeFloatCell c).mapError fun _ =>
        InsertError.cannotConvert) colIn = .ok colMid)
    (h2 : mapE _format_float colMid = .ok colOut) :
    ∀ (i : Nat) (v : Cell), colIn[i]? = some v →
      ((v = .null ∨ v = .nan) → colOut[i]? = some (.pair 1 0)) ∧
      (∀ q, v = .float q → colOut[i]? = some (.pair 0 q)) ∧
      (∀ n, v = .int n → colOut[i]? = some (.pair 0 (n : ℚ))) := by
  intro i v hv
  obtain ⟨w1, hw1, hw1i⟩ := mapE_ok_get _ _ _ h1 i v hv
  have hrest := format_pointwise h2 i w1 hw1i
  refine ⟨?_, ?_, ?_⟩
  · rintro (rfl | rfl) <;>
    · simp only [astypeFloatCell, Except.mapError, Except.ok.injEq] at hw1
      exact (hrest.1) (by rw [← hw1]; exact Or.inr rfl)
  · rintro q rfl
    simp only [astypeFloatCell, Except.mapError, Except.ok.injEq] at hw1
    exact (hrest.2.1) q (by rw [← hw1])
  · rintro n rfl
    simp only [astypeFloatCell, Except.mapError, Except.ok.injEq] at hw1
    exact (hrest.2.1) (n : ℚ) (by rw [← hw1])

/-- C7: in a successfully prepared payload, each value of the numeric
`Data`/`Confidence`/`Duration` columns is replaced by its present-flag pair:
`{N:1, V:0.0}` for `None`/`NaN`, `{N:0, V:float(v)}` otherwise. -/
theorem c7_numeric_encoding (fs : String → Option (List Nat))
    (qmap : List (String × Int)) (data out : Frame) (warns : List String)
    (hok : _prepare_insert_data fs qmap data = .ok (out, warns)) :
    ∀ c, c ∈ ["Data", "Confidence", "Duration"] →
    ∀ colIn, data.get? c = some colIn →
    ∃ colOut, out.get? c = some colOut ∧ colOut.length = colIn.length ∧
      ∀ (i : Nat) (v : Cell), colIn[i]? = some v →
        ((v = .null ∨ v = .nan) → colOut[i]? = some (.pair 1 0)) ∧
        (∀ q, v = .float q → colOut[i]? = some (.pair 0 q)) ∧
        (∀ n, v = .int n → colOut[i]? = some (.pair 0 (n : ℚ))) := by
  obtain ⟨f1, f2, f3, f4, f5, f6, h1, h2, hwarns, h3, h4, h5, h6, h7, h8⟩ :=
    prepare_ok_chain hok
  intro c hc colIn hget
  have hc3 : c = "Data" ∨ c = "Confidence" ∨ c = "Duration" := by simpa using hc
  rcases hc3 with rfl | rfl | rfl
  · -- Data: astype then format, preserved elsewhere
    have g1 : f1.get? "Data" = some colIn := by
      rw [qualityStep_get?_ne h1 (by decide) (by decide)]
      exact hget
    obtain ⟨colA, colA', hA, hmapA, hf2⟩ := dataAstypeStep_ok_shape h2
    rw [g1] at hA
    cases hA
    have g2 : f2.get? "Data" = some colA' := by
      rw [hf2]; exact Frame.get?_set_self _ _ _
    have g3 : f3.get? "Data" = some colA' := by
      rw [timestampStep_get?_ne h3 (by decide)]; exact g2
    have g4 : f4.get? "Data" = some colA' := by
      rw [filePathStep_get?_ne h5 (by decide) (by decide) (by decide)]; exact g3
    obtain ⟨colB, hmapB, g5⟩ := formatStep_get?_self h6 g4
    have g6 : f6.get? "Data" = some colB := by
      rw [formatStep_get?_ne h7 (by decide)]; exact g5
    have g7 : out.get? "Data" = some colB := by
      rw [formatStep_get?_ne h8 (by decide)]; exact g6
    refine ⟨colB, g7, ?_, astype_format_pointwise hmapA hmapB⟩
    rw [mapE_ok_length _ _ _ hmapB, mapE_ok_length _ _ _ hmapA]
  · -- Confidence: untouched until its own format pass
    have g1 : f1.get? "Confidence" = some colIn := by
      rw [qualityStep_get?_ne h1 (by decide) (by decide)]
      exact hget
    have g2 : f2.get? "Confidence" = some colIn := by
      rw [dataAstypeStep_get?_ne h2 (by decide)]; exact g1
    have g3 : f3.get? "Confidence" = some colIn := by
      rw [timestampStep_get?_ne h3 (by decide)]; exact g2
    have g4 : f4.get? "Confidence" = some colIn := by
      rw [filePathStep_get?_ne h5 (by decide) (by decide) (by decide)]; exact g3
    have g5 : f5.get? "Confidence" = some colIn := by
      rw [formatStep_get?_ne h6 (by decide)]; exact g4
    obtain ⟨colB, hmapB, g6⟩ := formatStep_get?_self h7 g5
    have g7 : out.get? "Confidence" = some colB := by
      rw [formatStep_get?_ne h8 (by decide)]; exact g6
    exact ⟨colB, g7, mapE_ok_length _ _ _ hmapB, format_pointwise hmapB⟩
  · -- Duration: untouched until the final format pass
    have g1 : f1.get? "Duration" = some colIn := by
      rw [qualityStep_get?_ne h1 (by decide) (by decide)]
      exact hget
    have g2 : f2.get? "Duration" = some colIn := by
      rw [dataAstypeStep_get?_ne h2 (by decide)]; exact g1
    have g3 : f3.get? "Duration" = some colIn := by
      rw [timestampStep_get?_ne h3 (by decide)]; exact g2
    have g4 : f4.get? "Duration" = some colIn := by
      rw [filePathStep_get?_ne h5 (by decide) (by decide) (by decide)]; exact g3
    have g5 : f5.get? "Duration" = some colIn := by
      rw [formatStep_get?_ne h6 (by decide)]; exact g4
    have g6 : f6.get? "Duration" = some colIn := by
      rw [formatStep_get?_ne h7 (by decide)]; exact g5
    obtain ⟨colB, hmapB, g7⟩ := formatStep_get?_self h8 g6
    exact ⟨colB, g7, mapE_ok_length _ _ _ hmapB, format_pointwise hmapB⟩

def c7data : Frame :=
  ⟨[("TimeStamp", [.str "2023-05-15T14:30:00", .str "2023-05-15T15:30:00"]),
    ("Quality", [.str "ok", .str "ok"]),
    ("Data", [.null, .float (123/100)]),
    ("Duration", [.int 9, .int 8])]⟩

def c7out : Frame :=
  ⟨[("TimeStamp", [.str "2023-05-15T14:30:00.000Z", .str "2023-05-15T15:30:00.000Z"]),
    ("QualityLevel", [.int 0, .int 0]),
    ("Data", [.pair 1 0, .pair 0 (123/100)]),
    ("Duration", [.pair 0 9, .pair 0 8])]⟩

/-- C7 witness: the encoding statement at a concrete two-row table with
`Data = [None, 1.23]`. -/
theorem c7_witness :
    ∃ colOut, c7out.get? "Data" = some colOut ∧
      colOut.length = ([Cell.null, Cell.float (123/100)] : List Cell).length ∧
      ∀ (i : Nat) (v : Cell), ([Cell.null, Cell.float (123/100)] : List Cell)[i]? = some v →
        ((v = .null ∨ v = .nan) → colOut[i]? = some (.pair 1 0)) ∧
        (∀ q, v = .float q → colOut[i]? = some (.pair 0 q)) ∧
        (∀ n, v = .int n → colOut[i]? = some (.pair 0 (n : ℚ))) :=
  c7_numeric_encoding (fun _ => none) [("ok", 0)] c7data c7out [] rfl
    "Data" (by decide) [Cell.null, Cell.float (123/100)] rfl

def c3data : Frame :=
  ⟨[("TimeStamp", [.str "2023-05-15T14:30:00"]), ("Quality", [.str "ok"]),
    ("Data", [.float (123/100)]), ("Foo", [.int 5])]⟩

def c3body : InsertBody :=
  ⟨false, "test",
   [("TimeStamp", [.str "2023-05-15T14:30:00.000Z"]), ("QualityLevel", [.int 0]),
    ("Data", [.pair 0 (123/100)]), ("Foo", [.int 5])]⟩

/-- C3 counterexample: a table with the unknown column `Foo` neither fails
nor has `Foo` dropped — the build succeeds, only warns, and `Foo` appears
verbatim in the produced wire body. -/
theorem c3_counterexample :
    _get_insert_data_body (fun _ => none) [("ok", 0)] "test" c3data false
      = .ok (c3body, ["Foo"]) ∧
    c3body.cols.map (·.1) = ["TimeStamp", "QualityLevel", "Data", "Foo"] :=
  ⟨rfl, by decide⟩

/-- C3 (amended): an input column outside the allowed set (the schema
columns and the quality aliases) is named in the unknown-columns warning
but is *kept*: whenever the body build succeeds, the column appears in the
produced wire body. -/
theorem c3_amended (fs : String → Option (List Nat)) (qmap : List (String × Int))
    (tsid : String) (bulk : Bool) (data : Frame) (body : InsertBody)
    (warns : List String)
    (hok : _get_insert_data_body fs qmap tsid data bulk = .ok (body, warns)) :
    ∀ c, c ∈ data.names →
    c ∉ ["TimeStamp", "Quality", "QualityLevel", "QualityTxt",
         "Confidence", "Data", "Duration", "FilePath"] →
    c ∈ warns ∧ c ∈ body.cols.map (·.1) := by
  unfold _get_insert_data_body at hok
  cases hprep : _prepare_insert_data fs qmap data with
  | error e => rw [hprep] at hok; exact absurd hok (by simp)
  | ok pr =>
    rw [hprep] at hok
    obtain ⟨f, warns'⟩ := pr
    dsimp only at hok
    simp only [Except.ok.injEq, Prod.mk.injEq] at hok
    obtain ⟨hbody, hwarns⟩ := hok
    obtain ⟨f1, f2, f3, f4, f5, f6, h1, h2, hwu, h3, h4, h5, h6, h7, h8⟩ :=
      prepare_ok_chain hprep
    intro c hmem hforb
    simp only [List.mem_cons, List.not_mem_nil, or_false, not_or] at hforb
    obtain ⟨hT, hQ, hQl, hQt, hC, hD, hDu, hF⟩ := hforb
    have hQa : c ∉ qualityAliases := by
      unfold qualityAliases
      simp only [List.mem_cons, List.not_mem_nil, or_false, not_or]
      exact ⟨hQ, hQl, hQt⟩
    have m1 : c ∈ f1.names := qualityStep_mem_names h1 hmem hQa
    have m2 : c ∈ f2.names := dataAstypeStep_mem_names h2 m1
    have hwarn : c ∈ warns := by
      rw [← hwarns, hwu]
      unfold unknownColumns
      rw [List.mem_filter]
      refine ⟨m2, ?_⟩
      have hnc : ¬ c ∈ insertSchemaColumns := by
        unfold insertSchemaColumns
        simp only [List.mem_cons, List.not_mem_nil, or_false, not_or]
        exact ⟨hT, hQl, hC, hD, hDu, hF⟩
      simpa using hnc
    have m3 : c ∈ f3.names := timestampStep_mem_names h3 m2
    have m4 : c ∈ f4.names := filePathStep_mem_names h5 m3 hF
    have m5 : c ∈ f5.names := formatStep_mem_names h6 m4
    have m6 : c ∈ f6.names := formatStep_mem_names h7 m5
    have m7 : c ∈ body.cols.map (·.1) := by
      rw [← hbody]
      exact formatStep_mem_names h8 m6
    exact ⟨hwarn, m7⟩

/-- C3 witness: the amended statement at the concrete `Foo` table. -/
theorem c3_witness : "Foo" ∈ ["Foo"] ∧ "Foo" ∈ c3body.cols.map (·.1) :=
  c3_amended (fun _ => none) [("ok", 0)] "test" false c3data c3body ["Foo"] rfl
    "Foo" (by decide) (by decide)

/-! ## Claim theorems: no mutation of the caller's frame -/

theorem Heap.write_mem_ne (h : Heap) (r : Nat) (f : Frame) {i : Nat} (hi : i ≠ r) :
    (h.write r f).mem i = h.mem i := by
  unfold Heap.write
  simp [hi]

theorem runStepsH_mem_ne (r : Nat) :
    ∀ (steps : List (Frame → Except InsertError Frame)) (h : Heap) (i : Nat),
    i ≠ r → ((runStepsH r steps h).1).mem i = h.mem i := by
  intro steps
  induction steps with
  | nil => intro h i hi; rfl
  | cons s rest ih =>
    intro h i hi
    unfold runStepsH
    cases s (h.mem r) with
    | error e => rfl
    | ok f =>
      dsimp only
      rw [ih (h.write r f) i hi]
      exact Heap.write_mem_ne h r f hi

/-- C10: neither `_prepare_insert_data` nor `_get_insert_data_body` ever
mutates the caller's frame object — all in-place statements target the
`data.copy()` allocated on entry, so the object at `dataRef` is unchanged
whether the run returns or raises. -/
theorem c10_no_mutation (fs : String → Option (List Nat))
    (qmap : List (String × Int)) (tsid : String) (bulk : Bool) (h : Heap)
    (dataRef : Nat) (href : dataRef < h.next) :
    ((prepareInsertDataProg fs qmap h dataRef).1).mem dataRef = h.mem dataRef ∧
    ((getInsertDataBodyProg fs qmap tsid h dataRef bulk).1).mem dataRef
      = h.mem dataRef := by
  have hne : dataRef ≠ h.next := Nat.ne_of_lt href
  have halloc : ((h.alloc (h.mem dataRef)).1).mem dataRef = h.mem dataRef := by
    unfold Heap.alloc
    simp [hne]
  have hprep : ((prepareInsertDataProg fs qmap h dataRef).1).mem dataRef
      = h.mem dataRef := by
    unfold prepareInsertDataProg
    dsimp only
    split
    · exact halloc
    · have hrun := runStepsH_mem_ne (h.alloc (h.mem dataRef)).2 (insertSteps fs qmap)
        (h.alloc (h.mem dataRef)).1 dataRef hne
      rw [halloc] at hrun
      cases hres : runStepsH (h.alloc (h.mem dataRef)).2 (insertSteps fs qmap)
          (h.alloc (h.mem dataRef)).1 with
      | mk h' res =>
        rw [hres] at hrun
        cases res <;> simpa using hrun
  refine ⟨hprep, ?_⟩
  unfold getInsertDataBodyProg
  cases hres : prepareInsertDataProg fs qmap h dataRef with
  | mk h' res =>
    rw [hres] at hprep
    cases res <;> simpa using hprep

def c10frame : Frame := ⟨[("TimeStamp", [.str "2023-05-15T14:30:00"])]⟩

/-- C10 witness: a concrete one-object heap is untouched at the caller's
reference by both runs. -/
theorem c10_witness :
    ((prepareInsertDataProg (fun _ => none) [] ⟨1, fun _ => c10frame⟩ 0).1).mem 0
      = c10frame ∧
    ((getInsertDataBodyProg (fun _ => none) [] "t" ⟨1, fun _ => c10frame⟩ 0 false).1).mem 0
      = c10frame :=
  c10_no_mutation (fun _ => none) [] "t" false ⟨1, fun _ => c10frame⟩ 0 (by decide)

end Watobs
